import Mathlib

/-!
# Verification of the follow-service graph engine

Shallow embedding of the Go follow-service repository
(`internal/repository/repository.go`, the gRPC handler, and
`internal/models/models.go`).

Modelling conventions:
* The relational store is a `DB`: a list of `users` rows, a list of
  `follows` rows, and a logical `clock` standing for the store's
  `CURRENT_TIMESTAMP` (strictly increasing across edge inserts).  The
  clock is the environment's time source, not program state.
* Go `int32` ids and counters are embedded as `Int`.  Counter overflow
  would surface as a storage error (Postgres `integer out of range`)
  and roll the transaction back; no claim touches overflow, so the
  arithmetic is exact.
* Fallible storage steps are driven by explicit fault schedules
  (`FollowFaults`, `UnfollowFaults`): each flag makes the corresponding
  database call fail, mirroring every `if err != nil` branch of the Go
  code.  Transaction-local writes are accumulated in local values and
  installed only at the commit step, exactly as `defer tx.Rollback()` +
  early `return` discards them in Go.
* `SELECT ... ORDER BY x LIMIT l OFFSET o` is `take`/`drop` over a
  sorted list; theorems about the read paths assume `0 ≤ limit` and
  `0 ≤ offset` (the backing store rejects negative windows with an
  error, which no claim depends on).
-/

namespace FollowService

namespace Models

/-- `models.User` from `internal/models/models.go`. -/
structure User where
  ID : Int
  Username : String
  Email : String
  FollowersCount : Int
  FollowingCount : Int
  CreatedAt : Nat
  deriving Repr, DecidableEq

/-- `models.Follow` from `internal/models/models.go`. -/
structure Follow where
  FollowerID : Int
  FollowingID : Int
  CreatedAt : Nat
  deriving Repr, DecidableEq

end Models

/-- The relational store: `users` and `follows` tables plus the logical
clock that stamps new edges (`created_at DEFAULT CURRENT_TIMESTAMP`). -/
structure DB where
  users : List Models.User
  follows : List Models.Follow
  clock : Nat
  deriving Repr, DecidableEq

/-- The error vocabulary of `internal/repository/repository.go`: the four
sentinel errors plus wrapped storage errors (`fmt.Errorf("...: %w", err)`),
which the handler maps to the `Internal` outcome. -/
inductive Err where
  | userNotFound
  | alreadyFollowing
  | notFollowing
  | selfFollow
  | internal (msg : String)
  deriving Repr, DecidableEq

/-- `isUniqueViolation` from `repository.go`: exact string comparison of the
error text against two fixed messages naming the `follows_pkey` constraint. -/
def isUniqueViolation (s : String) : Bool :=
  s == "pq: duplicate key value violates unique constraint \"follows_pkey\"" ||
  s == "duplicate key value violates unique constraint \"follows_pkey\""

/-- The error text the `lib/pq` driver produces for a duplicate insert into
`follows` (first of the two strings accepted by `isUniqueViolation`). -/
def pqDupText : String :=
  "pq: duplicate key value violates unique constraint \"follows_pkey\""

/-- Row lookup `SELECT ... FROM users WHERE id = $1`. -/
def userLookup (db : DB) (userID : Int) : Option Models.User :=
  db.users.find? (fun u => u.ID == userID)

/-- `Repository.GetUser`: `sql.ErrNoRows` becomes `ErrUserNotFound`, any other
query failure (the `fault` flag) is wrapped as an internal error. -/
def GetUser (fault : Bool) (db : DB) (userID : Int) : Except Err Models.User :=
  if fault then .error (.internal "failed to get user")
  else
    match userLookup db userID with
    | none => .error .userNotFound
    | some u => .ok u

/-- The Bool predicate of `WHERE follower_id = $1 AND following_id = $2` on
the `follows` table. -/
def edgeMatch (followerID followingID : Int) (e : Models.Follow) : Bool :=
  e.FollowerID == followerID && e.FollowingID == followingID

/-- Does a (follower, following) edge exist: the uniqueness domain of the
composite primary key `follows_pkey`. -/
def edgeExists (db : DB) (followerID followingID : Int) : Bool :=
  db.follows.any (edgeMatch followerID followingID)

/-- One of each `if err != nil` site of `Repository.Follow` can be made to
fail.  `insert` failing carries the storage error text the driver returned;
`dupText` is the text the driver uses to report a duplicate-key conflict. -/
structure FollowFaults where
  getFollower : Bool
  getFollowing : Bool
  beginTx : Bool
  insert : Option String
  dupText : String
  updFollowing : Bool
  updFollowers : Bool
  commit : Bool
  deriving Repr

/-- The fault-free schedule: every storage call succeeds and a duplicate
insert is reported with the `lib/pq` message. -/
def FollowFaults.none : FollowFaults :=
  ⟨false, false, false, Option.none, pqDupText, false, false, false⟩

/-- `UPDATE users SET FollowingCount = FollowingCount + d WHERE id = $1`. -/
def bumpFollowing (users : List Models.User) (userID : Int) (d : Int) : List Models.User :=
  users.map (fun u => if u.ID == userID then { u with FollowingCount := u.FollowingCount + d } else u)

/-- `UPDATE users SET FollowersCount = FollowersCount + d WHERE id = $1`. -/
def bumpFollowers (users : List Models.User) (userID : Int) (d : Int) : List Models.User :=
  users.map (fun u => if u.ID == userID then { u with FollowersCount := u.FollowersCount + d } else u)

/-- `Repository.Follow` from `repository.go` lines 78–121, step for step:
self-follow check, two `GetUser` existence checks, then a transaction that
inserts the edge (translating a unique violation to `ErrAlreadyFollowing`),
increments both counters and commits.  Every error path returns the input
`db` unchanged, exactly as `defer tx.Rollback()` discards the transaction's
writes. -/
def Follow (f : FollowFaults) (db : DB) (followerID followingID : Int) :
    Option Err × DB :=
  if followerID == followingID then (some .selfFollow, db)
  else
    match GetUser f.getFollower db followerID with
    | .error e => (some e, db)
    | .ok _ =>
      match GetUser f.getFollowing db followingID with
      | .error e => (some e, db)
      | .ok _ =>
        if f.beginTx then (some (.internal "failed to begin transaction"), db)
        else
          -- INSERT INTO follows: fails with the driver's duplicate-key text
          -- when the edge exists, or with an injected storage error.
          match (if edgeExists db followerID followingID then some f.dupText else f.insert) with
          | some s =>
            if isUniqueViolation s then (some .alreadyFollowing, db)
            else (some (.internal s), db)
          | none =>
            let tx1 : DB :=
              { db with
                follows := db.follows ++ [⟨followerID, followingID, db.clock⟩],
                clock := db.clock + 1 }
            if f.updFollowing then (some (.internal "failed to update following count"), db)
            else
              let tx2 : DB := { tx1 with users := bumpFollowing tx1.users followerID 1 }
              if f.updFollowers then (some (.internal "failed to update followers count"), db)
              else
                let tx3 : DB := { tx2 with users := bumpFollowers tx2.users followingID 1 }
                if f.commit then (some (.internal "failed to commit transaction"), db)
                else (none, tx3)

/-- Fault schedule for `Repository.Unfollow`, one flag per `if err != nil`
site (begin, the DELETE, `RowsAffected`, the two UPDATEs, commit). -/
structure UnfollowFaults where
  beginTx : Bool
  delete : Bool
  rowsAffected : Bool
  updFollowing : Bool
  updFollowers : Bool
  commit : Bool
  deriving Repr

/-- The fault-free schedule for `Unfollow`. -/
def UnfollowFaults.none : UnfollowFaults :=
  ⟨false, false, false, false, false, false⟩

/-- `Repository.Unfollow` from `repository.go` lines 123–161: open a
transaction, delete the edge, abort with `ErrNotFollowing` when zero rows
were affected, otherwise decrement both counters and commit.  No user
existence check is performed.  Every error path returns the input `db`. -/
def Unfollow (f : UnfollowFaults) (db : DB) (followerID followingID : Int) :
    Option Err × DB :=
  if f.beginTx then (some (.internal "failed to begin transaction"), db)
  else if f.delete then (some (.internal "failed to delete follow"), db)
  else
    let remaining := db.follows.filter (fun e => !(edgeMatch followerID followingID e))
    let rowsAffected := db.follows.length - remaining.length
    if f.rowsAffected then (some (.internal "failed to get rows affected"), db)
    else if rowsAffected == 0 then (some .notFollowing, db)
    else
      let tx1 : DB := { db with follows := remaining }
      if f.updFollowing then (some (.internal "failed to update following count"), db)
      else
        let tx2 : DB := { tx1 with users := bumpFollowing tx1.users followerID (-1) }
        if f.updFollowers then (some (.internal "failed to update followers count"), db)
        else
          let tx3 : DB := { tx2 with users := bumpFollowers tx2.users followingID (-1) }
          if f.commit then (some (.internal "failed to commit transaction"), db)
          else (none, tx3)

/-- A mutating call together with its fault schedule. -/
inductive Op where
  | follow (f : FollowFaults) (followerID followingID : Int)
  | unfollow (f : UnfollowFaults) (followerID followingID : Int)

/-- Run one mutating call. -/
def applyOp (op : Op) (db : DB) : Option Err × DB :=
  match op with
  | .follow f a b => Follow f db a b
  | .unfollow f a b => Unfollow f db a b

/-- Run a sequence of mutating calls, keeping each call's resulting state
(which is the input state whenever the call errors). -/
def run (db : DB) : List Op → DB
  | [] => db
  | op :: ops => run (applyOp op db).2 ops

/-- Number of edges terminating at `userID` (the user's true follower count,
computed from the edge set). -/
def countTo (db : DB) (userID : Int) : Nat :=
  db.follows.countP (fun e => e.FollowingID == userID)

/-- Number of edges originating from `userID` (the user's true following
count, computed from the edge set). -/
def countFrom (db : DB) (userID : Int) : Nat :=
  db.follows.countP (fun e => e.FollowerID == userID)

/-- The counter invariant: every user row's denormalized counters equal the
corresponding edge counts. -/
def consistent (db : DB) : Prop :=
  ∀ u ∈ db.users, u.FollowersCount = (countTo db u.ID : Int) ∧
    u.FollowingCount = (countFrom db u.ID : Int)

/-- The `follows_pkey` primary key: no two rows share the same
(follower, following) ordered pair. -/
def noDupEdges (db : DB) : Prop :=
  db.follows.Pairwise (fun e1 e2 => ¬(e1.FollowerID = e2.FollowerID ∧ e1.FollowingID = e2.FollowingID))

instance (db : DB) : Decidable (consistent db) := by
  unfold consistent; infer_instance

instance (db : DB) : Decidable (noDupEdges db) := by
  unfold noDupEdges; infer_instance

/-! ## Read paths (Graph Query Engine) -/

/-- `ORDER BY f.created_at DESC`: newer edges first. -/
def newerFirst (e1 e2 : Models.Follow) : Prop :=
  e2.CreatedAt ≤ e1.CreatedAt

instance : DecidableRel newerFirst :=
  fun e1 e2 => inferInstanceAs (Decidable (e2.CreatedAt ≤ e1.CreatedAt))

instance : IsTotal Models.Follow newerFirst :=
  ⟨fun e1 e2 => Nat.le_total e2.CreatedAt e1.CreatedAt⟩

instance : IsTrans Models.Follow newerFirst :=
  ⟨fun _ _ _ h1 h2 => Nat.le_trans h2 h1⟩

/-- `ORDER BY id` on users. -/
def byID (u1 u2 : Models.User) : Prop :=
  u1.ID ≤ u2.ID

instance : DecidableRel byID :=
  fun u1 u2 => inferInstanceAs (Decidable (u1.ID ≤ u2.ID))

instance : IsTotal Models.User byID := ⟨fun u1 u2 => Int.le_total u1.ID u2.ID⟩

instance : IsTrans Models.User byID := ⟨fun _ _ _ => Int.le_trans⟩

/-- `LIMIT $limit OFFSET $offset` over an ordered result set. -/
def window (limit offset : Int) (rows : List α) : List α :=
  (rows.drop offset.toNat).take limit.toNat

/-- The edges terminating at `userID`, ordered by creation time descending:
the `ORDER BY f.created_at DESC` result set of `GetFollowers` before the
join and the window are applied. -/
def followerEdges (db : DB) (userID : Int) : List Models.Follow :=
  List.insertionSort newerFirst (db.follows.filter (fun e => e.FollowingID == userID))

/-- The edges originating from `userID`, ordered by creation time
descending: the ordered result set of `GetFollowing`. -/
def followingEdges (db : DB) (userID : Int) : List Models.Follow :=
  List.insertionSort newerFirst (db.follows.filter (fun e => e.FollowerID == userID))

/-- `INNER JOIN users u ON u.id = $key e`: the user rows joined to one edge. -/
def joinUsers (db : DB) (key : Models.Follow → Int) (e : Models.Follow) : List Models.User :=
  db.users.filter (fun u => u.ID == key e)

/-- `Repository.GetFollowers` from `repository.go` lines 163–195: a COUNT
over the `follows` table, then a windowed join of `users` against the edges
terminating at `userID`, ordered by edge creation time descending. -/
def GetFollowers (db : DB) (userID limit offset : Int) : List Models.User × Int :=
  ((followerEdges db userID).flatMap (joinUsers db (·.FollowerID)) |> window limit offset,
   (countTo db userID : Int))

/-- `Repository.GetFollowing` from `repository.go` lines 197–229, symmetric
to `GetFollowers` over edges originating from `userID`. -/
def GetFollowing (db : DB) (userID limit offset : Int) : List Models.User × Int :=
  ((followingEdges db userID).flatMap (joinUsers db (·.FollowingID)) |> window limit offset,
   (countFrom db userID : Int))

/-- `Repository.ListUsers` from `repository.go` lines 51–76: COUNT of all
users, then a windowed `SELECT ... ORDER BY id` — `limit` and `offset` are
used exactly as supplied, with no clamping. -/
def ListUsers (db : DB) (limit offset : Int) : List Models.User × Int :=
  (window limit offset (List.insertionSort byID db.users), (db.users.length : Int))

/-! ## Request Boundary Adapter (gRPC handler) -/

namespace Handler

/-- The limit clamp the handler applies before every list call:
`if limit <= 0 || limit > 100 { limit = 20 }`. -/
def clampLimit (limit : Int) : Int :=
  if limit ≤ 0 || limit > 100 then 20 else limit

/-- The offset clamp: `if offset < 0 { offset = 0 }`. -/
def clampOffset (offset : Int) : Int :=
  if offset < 0 then 0 else offset

/-- `FollowServiceServer.GetFollowers`: reject a non-positive user id,
clamp the pagination bounds, then delegate to the engine.  `none` stands
for the `InvalidArgument` gRPC rejection. -/
def GetFollowers (db : DB) (userID limit offset : Int) :
    Option (List Models.User × Int) :=
  if userID ≤ 0 then none
  else some (FollowService.GetFollowers db userID (clampLimit limit) (clampOffset offset))

/-- `FollowServiceServer.GetFollowing`, symmetric. -/
def GetFollowing (db : DB) (userID limit offset : Int) :
    Option (List Models.User × Int) :=
  if userID ≤ 0 then none
  else some (FollowService.GetFollowing db userID (clampLimit limit) (clampOffset offset))

/-- `FollowServiceServer.ListUsers`: clamp the pagination bounds, then
delegate to the engine. -/
def ListUsers (db : DB) (limit offset : Int) : List Models.User × Int :=
  FollowService.ListUsers db (clampLimit limit) (clampOffset offset)

end Handler

/-- Overwrite every user's denormalized counters with arbitrary values
(used to state that the read paths' totals come from the edge set, not from
the stored counters). -/
def remapCounters (g1 g2 : Int → Int) (db : DB) : DB :=
  { db with
    users := db.users.map
      (fun u => { u with FollowersCount := g1 u.ID, FollowingCount := g2 u.ID }) }

/-! ## Example data for concrete evaluations -/

/-- Three provisioned users with consistent (zero) counters. -/
def userA : Models.User := ⟨1, "alice", "alice@example.com", 0, 0, 0⟩

def userB : Models.User := ⟨2, "bob", "bob@example.com", 0, 0, 0⟩

def userC : Models.User := ⟨3, "carol", "carol@example.com", 0, 0, 0⟩

/-- A store with three users and no edges. -/
def sampleDB : DB := ⟨[userA, userB, userC], [], 0⟩

/-- A store where user 1 already follows user 2 (counters consistent). -/
def dupDB : DB :=
  ⟨[⟨1, "alice", "alice@example.com", 0, 1, 0⟩,
    ⟨2, "bob", "bob@example.com", 1, 0, 0⟩, userC],
   [⟨1, 2, 0⟩], 1⟩

def userD : Models.User := ⟨4, "dave", "dave@example.com", 0, 0, 0⟩

/-- A store where users 1, 3 and 4 follow user 2, in that time order. -/
def pagedDB : DB :=
  ⟨[userA, userB, userC, userD], [⟨1, 2, 0⟩, ⟨3, 2, 1⟩, ⟨4, 2, 2⟩], 3⟩

/-- The n-th provisioned user of the 101-user demo store. -/
def rangeUser (n : Nat) : Models.User :=
  ⟨(n : Int) + 1, "u", "u@example.com", 0, 0, n⟩

/-- A store with 101 users and no edges, enough rows to show the engine
honors a limit above the adapter's 100 cap. -/
def clampDemoDB : DB := ⟨(List.range 101).map rangeUser, [], 0⟩

/-- A schedule whose transaction stage always fails: begin, insert, both
updates and commit all error.  Used to show outcomes decided before the
transaction opens. -/
def txFailFaults : FollowFaults :=
  ⟨false, false, true, some "disk failure", pqDupText, true, true, true⟩

/-! ## Helper lemmas -/

lemma countP_add_countP_not (p : α → Bool) (l : List α) :
    l.countP p + l.countP (fun a => !p a) = l.length := by
  induction l with
  | nil => simp
  | cons x xs ih => by_cases h : p x <;> simp [List.countP_cons, h] <;> omega

lemma countP_split (p q : α → Bool) (l : List α) :
    l.countP p = l.countP (fun a => p a && q a) + l.countP (fun a => p a && !q a) := by
  induction l with
  | nil => simp
  | cons x xs ih =>
    by_cases hp : p x <;> by_cases hq : q x <;>
      simp [List.countP_cons, hp, hq] <;> omega

/-- Under the `follows_pkey` invariant each ordered pair occurs at most once
in the `follows` table. -/
lemma pair_count_le_one (a b : Int) (l : List Models.Follow)
    (h : l.Pairwise (fun e1 e2 => ¬(e1.FollowerID = e2.FollowerID ∧ e1.FollowingID = e2.FollowingID))) :
    l.countP (edgeMatch a b) ≤ 1 := by
  induction l with
  | nil => simp
  | cons e es ih =>
    rcases List.pairwise_cons.mp h with ⟨he, hes⟩
    by_cases hm : edgeMatch a b e
    · have hz : es.countP (edgeMatch a b) = 0 := by
        rw [List.countP_eq_zero]
        intro e' he' hm'
        simp only [edgeMatch, Bool.and_eq_true, beq_iff_eq] at hm hm'
        exact he e' he' ⟨by omega, by omega⟩
      simp [List.countP_cons, hm, hz]
    · simpa [List.countP_cons, hm] using ih hes

/-- Every error outcome of `Follow` leaves the store untouched: each `return`
before `tx.Commit()` fires the deferred `tx.Rollback()`. -/
lemma Follow_err_state (f : FollowFaults) (db : DB) (a b : Int)
    (h : (Follow f db a b).1 ≠ Option.none) : (Follow f db a b).2 = db := by
  unfold Follow at *
  repeat' split at h
  all_goals simp_all

/-- Every error outcome of `Unfollow` leaves the store untouched. -/
lemma Unfollow_err_state (f : UnfollowFaults) (db : DB) (a b : Int)
    (h : (Unfollow f db a b).1 ≠ Option.none) : (Unfollow f db a b).2 = db := by
  unfold Unfollow at *
  repeat' split at h
  all_goals simp_all [apply_ite Prod.fst, apply_ite Prod.snd]

/-- A successful `Follow` ran the no-self-edge and no-duplicate checks and
committed exactly one new edge plus the two counter bumps. -/
lemma Follow_ok_state (f : FollowFaults) (db : DB) (a b : Int)
    (h : (Follow f db a b).1 = Option.none) :
    (a == b) = false ∧ edgeExists db a b = false ∧
    (Follow f db a b).2 =
      { users := bumpFollowers (bumpFollowing db.users a 1) b 1,
        follows := db.follows ++ [⟨a, b, db.clock⟩],
        clock := db.clock + 1 } := by
  unfold Follow at h ⊢
  by_cases hab : a == b
  · simp [hab] at h
  · simp only [hab, Bool.false_eq_true, if_false] at h ⊢
    cases hga : GetUser f.getFollower db a with
    | error e => simp [hga] at h
    | ok ua =>
      simp only [hga] at h ⊢
      cases hgb : GetUser f.getFollowing db b with
      | error e => simp [hgb] at h
      | ok ub =>
        simp only [hgb] at h ⊢
        by_cases hbt : f.beginTx
        · simp [hbt] at h
        · simp only [hbt, if_false] at h ⊢
          by_cases hex : edgeExists db a b
          · simp only [hex, if_true] at h
            by_cases huv : isUniqueViolation f.dupText <;> simp [huv] at h
          · simp only [hex, Bool.false_eq_true, if_false] at h ⊢
            cases hins : f.insert with
            | some s =>
              simp only [hins] at h
              by_cases huv : isUniqueViolation s <;> simp [huv] at h
            | none =>
              simp only [hins] at h ⊢
              by_cases hu1 : f.updFollowing
              · simp [hu1] at h
              · by_cases hu2 : f.updFollowers
                · simp [hu1, hu2] at h
                · by_cases hcm : f.commit
                  · simp [hu1, hu2, hcm] at h
                  · simp [hab, hu1, hu2, hcm, bumpFollowing, bumpFollowers]

/-- A successful `Unfollow` deleted at least one matching edge and committed
the deletion plus the two counter decrements. -/
lemma Unfollow_ok_state (f : UnfollowFaults) (db : DB) (a b : Int)
    (h : (Unfollow f db a b).1 = Option.none) :
    db.follows.countP (edgeMatch a b) ≠ 0 ∧
    (Unfollow f db a b).2 =
      { users := bumpFollowers (bumpFollowing db.users a (-1)) b (-1),
        follows := db.follows.filter (fun e => !(edgeMatch a b e)),
        clock := db.clock } := by
  unfold Unfollow at h ⊢
  by_cases h1 : f.beginTx
  · simp [h1] at h
  · simp only [h1, if_false] at h ⊢
    by_cases h2 : f.delete
    · simp [h2] at h
    · simp only [h2, if_false] at h ⊢
      by_cases h3 : f.rowsAffected
      · simp [h3] at h
      · simp only [h3, if_false] at h ⊢
        by_cases h0 :
            db.follows.length -
              (db.follows.filter (fun e => !(edgeMatch a b e))).length = 0
        · simp [h0] at h
        · refine ⟨?_, ?_⟩
          · intro hz
            apply h0
            have hc := countP_add_countP_not (edgeMatch a b) db.follows
            rw [List.countP_eq_length_filter (fun e => !(edgeMatch a b e))] at hc
            omega
          · simp only [beq_iff_eq, h0, if_false] at h ⊢
            by_cases h4 : f.updFollowing
            · simp [h4] at h
            · by_cases h5 : f.updFollowers
              · simp [h4, h5] at h
              · by_cases h6 : f.commit
                · simp [h4, h5, h6] at h
                · simp [h4, h5, h6, bumpFollowing, bumpFollowers]

/-- A committed `Follow` preserves the primary-key invariant: the new edge
was checked absent before the insert. -/
lemma noDup_follow_ok (f : FollowFaults) (db : DB) (a b : Int)
    (hnd : noDupEdges db) (hok : (Follow f db a b).1 = Option.none) :
    noDupEdges (Follow f db a b).2 := by
  obtain ⟨hab, hex, hstate⟩ := Follow_ok_state f db a b hok
  rw [hstate]
  unfold noDupEdges at *
  rw [List.pairwise_append]
  refine ⟨hnd, by simp, ?_⟩
  intro x hx y hy
  simp only [List.mem_singleton] at hy
  subst hy
  rintro ⟨hxa, hxb⟩
  have : edgeMatch a b x = true := by
    simp [edgeMatch, hxa, hxb]
  rw [edgeExists, List.any_eq_false] at hex
  exact hex x hx this

/-- A committed `Follow` preserves the counter invariant: both counters are
bumped in the same transaction as the edge insert. -/
lemma consistent_follow_ok (f : FollowFaults) (db : DB) (a b : Int)
    (hc : consistent db) (hok : (Follow f db a b).1 = Option.none) :
    consistent (Follow f db a b).2 := by
  obtain ⟨hab, hex, hstate⟩ := Follow_ok_state f db a b hok
  rw [hstate]
  intro v hv
  simp only [bumpFollowers, bumpFollowing, List.map_map, List.mem_map,
    Function.comp] at hv
  obtain ⟨u, hu, hvu⟩ := hv
  obtain ⟨hcT, hcF⟩ := hc u hu
  subst hvu
  have hab' : a ≠ b := by simpa using hab
  by_cases hua : u.ID = a
  · have hub : u.ID ≠ b := by rw [hua]; exact hab'
    constructor <;>
      simp [countTo, countFrom, List.countP_append, List.countP_cons,
        hua, hub, hab, hab', Ne.symm hab', hcT, hcF]
  · by_cases hub : u.ID = b
    · constructor <;>
        simp [countTo, countFrom, List.countP_append, List.countP_cons,
          hua, hub, hab, hab', Ne.symm hab', Ne.symm hua, hcT, hcF]
    · constructor <;>
        simp [countTo, countFrom, List.countP_append, List.countP_cons,
          hua, hub, Ne.symm hua, Ne.symm hub, hcT, hcF]

/-- A committed `Unfollow` preserves the primary-key invariant (deletion
only removes rows). -/
lemma noDup_unfollow_ok (f : UnfollowFaults) (db : DB) (a b : Int)
    (hnd : noDupEdges db) (hok : (Unfollow f db a b).1 = Option.none) :
    noDupEdges (Unfollow f db a b).2 := by
  obtain ⟨_, hstate⟩ := Unfollow_ok_state f db a b hok
  rw [hstate]
  exact List.Pairwise.sublist (List.filter_sublist db.follows) hnd

/-- Under the primary-key invariant, a delete that affected at least one row
removed exactly one row. -/
lemma delete_count (db : DB) (a b : Int) (hnd : noDupEdges db)
    (hcnt : db.follows.countP (edgeMatch a b) ≠ 0) :
    db.follows.countP (edgeMatch a b) = 1 := by
  have := pair_count_le_one a b db.follows hnd
  omega

/-- Deleting the (a, b) edges from a table that holds exactly one of them
lowers the per-user incoming-edge count by one exactly for user b. -/
lemma countTo_after_delete (l : List Models.Follow) (a b c : Int)
    (hone : l.countP (edgeMatch a b) = 1) :
    (((l.filter (fun e => !(edgeMatch a b e))).countP
        (fun e => e.FollowingID == c) : Int))
      = (l.countP (fun e => e.FollowingID == c) : Int) - (if c = b then 1 else 0) := by
  rw [List.countP_filter]
  have hs := countP_split (fun e => e.FollowingID == c) (edgeMatch a b) l
  by_cases hcb : c = b
  · subst hcb
    have h1 : l.countP (fun e => e.FollowingID == c && edgeMatch a c e)
        = l.countP (edgeMatch a c) := by
      apply List.countP_congr
      intro e _
      simp only [edgeMatch, Bool.and_eq_true, beq_iff_eq]
      constructor
      · rintro ⟨_, h⟩; exact h
      · rintro ⟨h1, h2⟩; exact ⟨by omega, h1, h2⟩
    rw [hone] at h1
    have h2 : (if c = c then (1 : Int) else 0) = 1 := by simp
    rw [h2]
    omega
  · have h0 : l.countP (fun e => e.FollowingID == c && edgeMatch a b e) = 0 := by
      rw [List.countP_eq_zero]
      intro e _ hbad
      simp only [edgeMatch, Bool.and_eq_true, beq_iff_eq] at hbad
      exact hcb (by omega)
    simp only [if_neg hcb]
    omega

/-- Symmetric to `countTo_after_delete` for outgoing edges and user a. -/
lemma countFrom_after_delete (l : List Models.Follow) (a b c : Int)
    (hone : l.countP (edgeMatch a b) = 1) :
    (((l.filter (fun e => !(edgeMatch a b e))).countP
        (fun e => e.FollowerID == c) : Int))
      = (l.countP (fun e => e.FollowerID == c) : Int) - (if c = a then 1 else 0) := by
  rw [List.countP_filter]
  have hs := countP_split (fun e => e.FollowerID == c) (edgeMatch a b) l
  by_cases hca : c = a
  · subst hca
    have h1 : l.countP (fun e => e.FollowerID == c && edgeMatch c b e)
        = l.countP (edgeMatch c b) := by
      apply List.countP_congr
      intro e _
      simp only [edgeMatch, Bool.and_eq_true, beq_iff_eq]
      constructor
      · rintro ⟨_, h⟩; exact h
      · rintro ⟨h1, h2⟩; exact ⟨by omega, h1, h2⟩
    rw [hone] at h1
    have h2 : (if c = c then (1 : Int) else 0) = 1 := by simp
    rw [h2]
    omega
  · have h0 : l.countP (fun e => e.FollowerID == c && edgeMatch a b e) = 0 := by
      rw [List.countP_eq_zero]
      intro e _ hbad
      simp only [edgeMatch, Bool.and_eq_true, beq_iff_eq] at hbad
      exact hca (by omega)
    simp only [if_neg hca]
    omega

/-- A committed `Unfollow` preserves the counter invariant: exactly one edge
was removed and both counters are decremented in the same transaction. -/
lemma consistent_unfollow_ok (f : UnfollowFaults) (db : DB) (a b : Int)
    (hnd : noDupEdges db) (hc : consistent db)
    (hok : (Unfollow f db a b).1 = Option.none) :
    consistent (Unfollow f db a b).2 := by
  obtain ⟨hcnt, hstate⟩ := Unfollow_ok_state f db a b hok
  have hone := delete_count db a b hnd hcnt
  rw [hstate]
  intro v hv
  simp only [bumpFollowers, bumpFollowing, List.map_map, List.mem_map,
    Function.comp] at hv
  obtain ⟨u, hu, hvu⟩ := hv
  obtain ⟨hcT, hcF⟩ := hc u hu
  subst hvu
  simp only [countTo, countFrom] at hcT hcF ⊢
  rw [countTo_after_delete db.follows a b _ hone,
    countFrom_after_delete db.follows a b _ hone]
  by_cases hua : u.ID = a <;> by_cases hub : u.ID = b <;>
    simp [hua, hub, hcT, hcF] <;> constructor <;> split <;> simp_all <;> omega

/-- Every single mutating call, whatever its fault schedule and outcome,
preserves both invariants. -/
lemma applyOp_preserves (op : Op) (db : DB) (hnd : noDupEdges db)
    (hc : consistent db) :
    noDupEdges (applyOp op db).2 ∧ consistent (applyOp op db).2 := by
  cases op with
  | follow f a b =>
    by_cases hok : (Follow f db a b).1 = Option.none
    · exact ⟨noDup_follow_ok f db a b hnd hok, consistent_follow_ok f db a b hc hok⟩
    · simp only [applyOp]
      rw [Follow_err_state f db a b hok]
      exact ⟨hnd, hc⟩
  | unfollow f a b =>
    by_cases hok : (Unfollow f db a b).1 = Option.none
    · exact ⟨noDup_unfollow_ok f db a b hnd hok,
        consistent_unfollow_ok f db a b hnd hc hok⟩
    · simp only [applyOp]
      rw [Unfollow_err_state f db a b hok]
      exact ⟨hnd, hc⟩

/-- Any sequence of mutating calls preserves both invariants. -/
lemma run_preserves (ops : List Op) (db : DB) (hnd : noDupEdges db)
    (hc : consistent db) :
    noDupEdges (run db ops) ∧ consistent (run db ops) := by
  induction ops generalizing db with
  | nil => exact ⟨hnd, hc⟩
  | cons op ops ih =>
    obtain ⟨hnd', hc'⟩ := applyOp_preserves op db hnd hc
    exact ih (applyOp op db).2 hnd' hc'

/-- An absent edge means no row matches the pair predicate. -/
lemma edge_absent_countP (db : DB) (a b : Int) (hex : edgeExists db a b = false) :
    db.follows.countP (edgeMatch a b) = 0 := by
  rw [List.countP_eq_zero]
  intro e he
  exact fun hm => (List.any_eq_false.mp hex) e he hm

/-- Deleting an absent edge filters nothing out. -/
lemma filter_absent (db : DB) (a b : Int) (hex : edgeExists db a b = false) :
    db.follows.filter (fun e => !(edgeMatch a b e)) = db.follows := by
  apply List.filter_eq_self.mpr
  intro e he
  simp [List.any_eq_false.mp hex e he]

/-- `bumpFollowing` commutes with row lookup: the updated table's row for
any id is the update applied to the old row. -/
lemma find?_bumpFollowing (users : List Models.User) (t d c : Int) :
    (bumpFollowing users t d).find? (fun u => u.ID == c)
      = (users.find? (fun u => u.ID == c)).map
          (fun u => if u.ID == t then { u with FollowingCount := u.FollowingCount + d } else u) := by
  rw [bumpFollowing, List.find?_map]
  have hpf : ((fun u : Models.User => u.ID == c) ∘ fun u : Models.User =>
      if u.ID == t then { u with FollowingCount := u.FollowingCount + d } else u)
      = (fun u : Models.User => u.ID == c) := by
    funext u
    by_cases h : u.ID = t <;> simp [Function.comp, h]
  rw [hpf]

/-- `bumpFollowers` commutes with row lookup. -/
lemma find?_bumpFollowers (users : List Models.User) (t d c : Int) :
    (bumpFollowers users t d).find? (fun u => u.ID == c)
      = (users.find? (fun u => u.ID == c)).map
          (fun u => if u.ID == t then { u with FollowersCount := u.FollowersCount + d } else u) := by
  rw [bumpFollowers, List.find?_map]
  have hpf : ((fun u : Models.User => u.ID == c) ∘ fun u : Models.User =>
      if u.ID == t then { u with FollowersCount := u.FollowersCount + d } else u)
      = (fun u : Models.User => u.ID == c) := by
    funext u
    by_cases h : u.ID = t <;> simp [Function.comp, h]
  rw [hpf]

/-- With a fault-free schedule, distinct existing users and no prior edge,
`Follow` succeeds and commits exactly the new edge and the two bumps. -/
lemma Follow_none_ok (db : DB) (a b : Int) (ua ub : Models.User)
    (hab : a ≠ b) (hua : userLookup db a = some ua)
    (hub : userLookup db b = some ub) (hex : edgeExists db a b = false) :
    Follow FollowFaults.none db a b =
      (Option.none,
       { users := bumpFollowers (bumpFollowing db.users a 1) b 1,
         follows := db.follows ++ [⟨a, b, db.clock⟩],
         clock := db.clock + 1 }) := by
  unfold Follow GetUser FollowFaults.none
  simp [hua, hub, hex, hab, bumpFollowing, bumpFollowers]

/-- The four counter updates of a Follow/Unfollow round trip cancel. -/
lemma bump_round_trip (us : List Models.User) (a b : Int) (hab : a ≠ b) :
    bumpFollowers (bumpFollowing (bumpFollowers (bumpFollowing us a 1) b 1) a (-1)) b (-1)
      = us := by
  unfold bumpFollowing bumpFollowers
  rw [List.map_map, List.map_map, List.map_map]
  have hid : ∀ u : Models.User,
      ((fun u : Models.User =>
          if u.ID == b then { u with FollowersCount := u.FollowersCount + -1 } else u) ∘
        (fun u : Models.User =>
          if u.ID == a then { u with FollowingCount := u.FollowingCount + -1 } else u) ∘
        (fun u : Models.User =>
          if u.ID == b then { u with FollowersCount := u.FollowersCount + 1 } else u) ∘
        (fun u : Models.User =>
          if u.ID == a then { u with FollowingCount := u.FollowingCount + 1 } else u)) u = u := by
    intro u
    obtain ⟨uid, un, ue, ufc, ugc, uca⟩ := u
    by_cases ha : uid = a <;> by_cases hb : uid = b
    · exact absurd (ha.symm.trans hb) hab
    all_goals simp [Function.comp, ha, hb, hab, Ne.symm hab]
  calc List.map _ us = List.map id us := List.map_congr_left fun u _ => hid u
    _ = us := List.map_id us

/-! ## Claims -/

/-- C1: after any sequence of committed Follow/Unfollow calls (failed calls
leave the state unchanged), every user's `followers_count` equals the number
of edges terminating at that user and `following_count` the number of edges
originating from it, provided the store started consistent and satisfied the
`follows_pkey` uniqueness invariant. -/
theorem counters_match_edge_set (db : DB) (ops : List Op)
    (hnd : noDupEdges db) (hc : consistent db) :
    consistent (run db ops) :=
  (run_preserves ops db hnd hc).2

theorem counters_match_edge_set_witness :
    noDupEdges sampleDB ∧ consistent sampleDB ∧
      consistent (run sampleDB
        [Op.follow FollowFaults.none 1 2, Op.follow FollowFaults.none 3 2,
         Op.unfollow UnfollowFaults.none 1 2]) :=
  ⟨by decide, by decide,
    counters_match_edge_set sampleDB
      [Op.follow FollowFaults.none 1 2, Op.follow FollowFaults.none 3 2,
       Op.unfollow UnfollowFaults.none 1 2] (by decide) (by decide)⟩

/-- C2: every mutating operation is atomic — whatever the fault schedule,
a Follow or Unfollow call that returns an error leaves the edge set and all
counters exactly as they were before the call. -/
theorem mutation_error_rolls_back (op : Op) (db : DB)
    (h : (applyOp op db).1 ≠ Option.none) : (applyOp op db).2 = db := by
  cases op with
  | follow f a b => exact Follow_err_state f db a b h
  | unfollow f a b => exact Unfollow_err_state f db a b h

theorem mutation_error_rolls_back_witness :
    (applyOp (Op.follow ⟨false, false, false, Option.none, pqDupText,
        false, true, false⟩ 1 2) sampleDB).1 ≠ Option.none ∧
      (applyOp (Op.follow ⟨false, false, false, Option.none, pqDupText,
        false, true, false⟩ 1 2) sampleDB).2 = sampleDB :=
  ⟨by decide, mutation_error_rolls_back _ sampleDB (by decide)⟩

/-- C4: Follow(X, X) fails with the SelfFollow error for every X, under
every fault schedule (so without consulting the store at all), and never
changes an edge or a counter. -/
theorem follow_self_rejected (f : FollowFaults) (db : DB) (x : Int) :
    Follow f db x x = (some Err.selfFollow, db) := by
  unfold Follow
  simp

/-- C5: when no (followerID, followingID) edge exists — user existence is
never checked — Unfollow returns NotFollowing and changes nothing; and its
outcomes are confined to Ok, NotFollowing and Internal (never UserNotFound,
SelfFollow or AlreadyFollowing). -/
theorem unfollow_absent_edge (f : UnfollowFaults) (db : DB) (a b : Int) :
    (f.beginTx = false → f.delete = false → f.rowsAffected = false →
      edgeExists db a b = false →
      Unfollow f db a b = (some Err.notFollowing, db)) ∧
    ((Unfollow f db a b).1 = Option.none ∨
      (Unfollow f db a b).1 = some Err.notFollowing ∨
      ∃ s, (Unfollow f db a b).1 = some (Err.internal s)) := by
  constructor
  · intro h1 h2 h3 hex
    unfold Unfollow
    rw [filter_absent db a b hex]
    simp [h1, h2, h3]
  · unfold Unfollow
    repeat' split
    all_goals simp
    all_goals split <;> simp

theorem unfollow_absent_edge_witness :
    Unfollow UnfollowFaults.none sampleDB 7 9 = (some Err.notFollowing, sampleDB) :=
  (unfollow_absent_edge UnfollowFaults.none sampleDB 7 9).1 rfl rfl rfl (by decide)

/-- C7: for distinct ids, Follow returns UserNotFound when either id has no
user row; the check runs before the transaction opens (the conclusion holds
under arbitrary transaction-stage faults) and the store is unchanged. -/
theorem follow_missing_user (f : FollowFaults) (db : DB) (a b : Int)
    (hab : a ≠ b) (h1 : f.getFollower = false) (h2 : f.getFollowing = false)
    (habs : userLookup db a = Option.none ∨ userLookup db b = Option.none) :
    Follow f db a b = (some Err.userNotFound, db) := by
  unfold Follow GetUser
  rcases habs with ha | hb
  · simp [hab, ha, h1]
  · cases hla : userLookup db a with
    | none => simp [hab, h1, hla]
    | some u => simp [hab, h1, h2, hla, hb]

theorem follow_missing_user_witness :
    Follow txFailFaults sampleDB 1 9 = (some Err.userNotFound, sampleDB) :=
  follow_missing_user txFailFaults sampleDB 1 9 (by decide) rfl rfl
    (Or.inr (by decide))

/-- C3: for distinct existing users with no prior edge, Follow succeeds
once, fails with AlreadyFollowing (not a generic internal error) the second
time, and afterwards the edge set holds exactly one (a, b) edge while each
endpoint's counter shows exactly one increment. -/
theorem follow_twice_already_following (db : DB) (a b : Int)
    (ua ub : Models.User) (hab : a ≠ b)
    (hua : userLookup db a = some ua) (hub : userLookup db b = some ub)
    (hex : edgeExists db a b = false) :
    (Follow FollowFaults.none db a b).1 = Option.none ∧
    (Follow FollowFaults.none (Follow FollowFaults.none db a b).2 a b).1
      = some Err.alreadyFollowing ∧
    ((Follow FollowFaults.none (Follow FollowFaults.none db a b).2 a b).2).follows.countP
        (edgeMatch a b) = 1 ∧
    userLookup (Follow FollowFaults.none (Follow FollowFaults.none db a b).2 a b).2 a
      = some { ua with FollowingCount := ua.FollowingCount + 1 } ∧
    userLookup (Follow FollowFaults.none (Follow FollowFaults.none db a b).2 a b).2 b
      = some { ub with FollowersCount := ub.FollowersCount + 1 } := by
  have hIDa : ua.ID = a := by simpa using List.find?_some hua
  have hIDb : ub.ID = b := by simpa using List.find?_some hub
  rw [Follow_none_ok db a b ua ub hab hua hub hex]
  set db1 : DB := { users := bumpFollowers (bumpFollowing db.users a 1) b 1, follows := db.follows ++ [⟨a, b, db.clock⟩], clock := db.clock + 1 } with hdb1
  have hex1 : edgeExists db1 a b = true := by
    rw [hdb1]
    simp [edgeExists, edgeMatch]
  have hlook : ∀ c : Int,
      userLookup db1 c
        = ((userLookup db c).map
            (fun u => if u.ID == a then { u with FollowingCount := u.FollowingCount + 1 } else u)).map
            (fun u => if u.ID == b then { u with FollowersCount := u.FollowersCount + 1 } else u) := by
    intro c
    rw [hdb1]
    show (bumpFollowers (bumpFollowing db.users a 1) b 1).find? (fun u => u.ID == c) = _
    rw [find?_bumpFollowers, find?_bumpFollowing]
    rfl
  have hlka : userLookup db1 a
      = some { ua with FollowingCount := ua.FollowingCount + 1 } := by
    rw [hlook a, hua]
    simp [hIDa, hab]
  have hlkb : userLookup db1 b
      = some { ub with FollowersCount := ub.FollowersCount + 1 } := by
    rw [hlook b, hub]
    simp [hIDb, Ne.symm hab]
  have hsecond : Follow FollowFaults.none db1 a b
      = (some Err.alreadyFollowing, db1) := by
    unfold Follow GetUser FollowFaults.none
    simp [hab, hlka, hlkb, hex1, isUniqueViolation, pqDupText]
  rw [hsecond]
  refine ⟨rfl, rfl, ?_, hlka, hlkb⟩
  show db1.follows.countP (edgeMatch a b) = 1
  rw [hdb1]
  show (db.follows ++ [(⟨a, b, db.clock⟩ : Models.Follow)]).countP (edgeMatch a b) = 1
  rw [List.countP_append, edge_absent_countP db a b hex]
  simp [edgeMatch]

theorem follow_twice_already_following_witness :
    (Follow FollowFaults.none sampleDB 1 2).1 = Option.none ∧
    (Follow FollowFaults.none (Follow FollowFaults.none sampleDB 1 2).2 1 2).1
      = some Err.alreadyFollowing :=
  have h := follow_twice_already_following sampleDB 1 2 userA userB
    (by decide) (by decide) (by decide) (by decide)
  ⟨h.1, h.2.1⟩

/-- C6: a successful Follow followed by a successful Unfollow of the same
pair restores the users table (both counters) and the follows table exactly
to their pre-Follow contents. -/
theorem follow_unfollow_round_trip (db : DB) (a b : Int)
    (ua ub : Models.User) (hab : a ≠ b)
    (hua : userLookup db a = some ua) (hub : userLookup db b = some ub)
    (hex : edgeExists db a b = false) :
    (Follow FollowFaults.none db a b).1 = Option.none ∧
    (Unfollow UnfollowFaults.none (Follow FollowFaults.none db a b).2 a b).1
      = Option.none ∧
    (Unfollow UnfollowFaults.none (Follow FollowFaults.none db a b).2 a b).2.users
      = db.users ∧
    (Unfollow UnfollowFaults.none (Follow FollowFaults.none db a b).2 a b).2.follows
      = db.follows := by
  rw [Follow_none_ok db a b ua ub hab hua hub hex]
  have hrem : (db.follows ++ [(⟨a, b, db.clock⟩ : Models.Follow)]).filter
      (fun e => !(edgeMatch a b e)) = db.follows := by
    rw [List.filter_append, filter_absent db a b hex]
    simp [edgeMatch]
  set db1 : DB := { users := bumpFollowers (bumpFollowing db.users a 1) b 1, follows := db.follows ++ [⟨a, b, db.clock⟩], clock := db.clock + 1 } with hdb1
  set us2 : List Models.User := bumpFollowers (bumpFollowing (bumpFollowers (bumpFollowing db.users a 1) b 1) a (-1)) b (-1) with hus2
  have hUnf : Unfollow UnfollowFaults.none db1 a b
      = (Option.none, { users := us2, follows := db.follows, clock := db.clock + 1 }) := by
    rw [hdb1, hus2]
    unfold Unfollow UnfollowFaults.none
    rw [hrem]
    simp [List.length_append]
  rw [hUnf]
  exact ⟨rfl, rfl, hus2 ▸ bump_round_trip db.users a b hab, rfl⟩

theorem follow_unfollow_round_trip_witness :
    (Unfollow UnfollowFaults.none (Follow FollowFaults.none sampleDB 1 2).2 1 2).2.users
      = sampleDB.users ∧
    (Unfollow UnfollowFaults.none (Follow FollowFaults.none sampleDB 1 2).2 1 2).2.follows
      = sampleDB.follows :=
  have h := follow_unfollow_round_trip sampleDB 1 2 userA userB
    (by decide) (by decide) (by decide) (by decide)
  ⟨h.2.2.1, h.2.2.2⟩

/-- C8: GetFollowers returns the total computed from the edge set (not the
denormalized counter — overwriting every counter leaves it unchanged), and
its page is the limit/offset window of the users joined to the edges
terminating at `userID` ordered by edge-creation time descending; every
returned row is a user with an edge to `userID`; GetFollowing is symmetric
over originating edges. -/
theorem get_followers_following_spec (db : DB) (uid limit offset : Int) :
    (GetFollowers db uid limit offset).2 = (countTo db uid : Int) ∧
    (∀ g1 g2 : Int → Int,
      (GetFollowers (remapCounters g1 g2 db) uid limit offset).2
        = (GetFollowers db uid limit offset).2) ∧
    List.Sorted newerFirst (followerEdges db uid) ∧
    (GetFollowers db uid limit offset).1
      = window limit offset
          ((followerEdges db uid).flatMap (joinUsers db (·.FollowerID))) ∧
    (∀ u ∈ (GetFollowers db uid limit offset).1,
      ∃ e ∈ db.follows, e.FollowingID = uid ∧ u.ID = e.FollowerID ∧ u ∈ db.users) ∧
    (GetFollowers db uid limit offset).1.length ≤ limit.toNat ∧
    (GetFollowing db uid limit offset).2 = (countFrom db uid : Int) ∧
    (∀ g1 g2 : Int → Int,
      (GetFollowing (remapCounters g1 g2 db) uid limit offset).2
        = (GetFollowing db uid limit offset).2) ∧
    List.Sorted newerFirst (followingEdges db uid) ∧
    (GetFollowing db uid limit offset).1
      = window limit offset
          ((followingEdges db uid).flatMap (joinUsers db (·.FollowingID))) ∧
    (∀ u ∈ (GetFollowing db uid limit offset).1,
      ∃ e ∈ db.follows, e.FollowerID = uid ∧ u.ID = e.FollowingID ∧ u ∈ db.users) := by
  refine ⟨rfl, fun g1 g2 => rfl, List.sorted_insertionSort newerFirst _, rfl,
    ?_, ?_, rfl, fun g1 g2 => rfl, List.sorted_insertionSort newerFirst _, rfl, ?_⟩
  · intro u hu
    have hsub : ((((followerEdges db uid).flatMap
        (joinUsers db (·.FollowerID))).drop offset.toNat).take limit.toNat).Sublist
          ((followerEdges db uid).flatMap (joinUsers db (·.FollowerID))) :=
      (List.take_sublist _ _).trans (List.drop_sublist _ _)
    have hu' := hsub.mem hu
    rw [List.mem_flatMap] at hu'
    obtain ⟨e, he, hue⟩ := hu'
    rw [followerEdges, List.mem_insertionSort, List.mem_filter] at he
    obtain ⟨hef, hepred⟩ := he
    rw [joinUsers, List.mem_filter] at hue
    obtain ⟨huu, hupred⟩ := hue
    exact ⟨e, hef, by simpa using hepred, by simpa using hupred, huu⟩
  · show (window limit offset _).length ≤ limit.toNat
    rw [window]
    exact List.length_take_le _ _
  · intro u hu
    have hsub : ((((followingEdges db uid).flatMap
        (joinUsers db (·.FollowingID))).drop offset.toNat).take limit.toNat).Sublist
          ((followingEdges db uid).flatMap (joinUsers db (·.FollowingID))) :=
      (List.take_sublist _ _).trans (List.drop_sublist _ _)
    have hu' := hsub.mem hu
    rw [List.mem_flatMap] at hu'
    obtain ⟨e, he, hue⟩ := hu'
    rw [followingEdges, List.mem_insertionSort, List.mem_filter] at he
    obtain ⟨hef, hepred⟩ := he
    rw [joinUsers, List.mem_filter] at hue
    obtain ⟨huu, hupred⟩ := hue
    exact ⟨e, hef, by simpa using hepred, by simpa using hupred, huu⟩

theorem get_followers_following_spec_witness :
    ∃ e ∈ pagedDB.follows,
      e.FollowingID = 2 ∧ userD.ID = e.FollowerID ∧ userD ∈ pagedDB.users :=
  (get_followers_following_spec pagedDB 2 2 0).2.2.2.2.1 userD (by decide)

/-- C9 counterexample: a limit of 150 is not clamped down to the cap 100 —
the adapter resets it to the default 20 instead. -/
theorem clamp_limit_resets_not_caps :
    Handler.clampLimit 150 = 20 ∧ Handler.clampLimit 150 ≠ 100 := by
  decide

/-- C9 (amended): the adapter clamps before delegating — a non-positive
limit becomes the default 20, a limit above 100 is also reset to 20 (so the
effective limit never exceeds 100, but an oversized limit is not truncated
to 100), in-range limits pass through, a negative offset is floored at 0 —
while the engine uses limit and offset exactly as supplied (it returns 101
rows for limit 101 when enough rows exist). -/
theorem handler_clamps_engine_passes (db : DB) (userID limit offset : Int) :
    Handler.GetFollowers db userID limit offset
      = (if userID ≤ 0 then Option.none
         else some (GetFollowers db userID
            (Handler.clampLimit limit) (Handler.clampOffset offset))) ∧
    Handler.GetFollowing db userID limit offset
      = (if userID ≤ 0 then Option.none
         else some (GetFollowing db userID
            (Handler.clampLimit limit) (Handler.clampOffset offset))) ∧
    (limit ≤ 0 → Handler.clampLimit limit = 20) ∧
    (100 < limit → Handler.clampLimit limit = 20) ∧
    (0 < limit → limit ≤ 100 → Handler.clampLimit limit = limit) ∧
    0 < Handler.clampLimit limit ∧ Handler.clampLimit limit ≤ 100 ∧
    Handler.clampOffset offset = max offset 0 ∧
    ListUsers db limit offset
      = (window limit offset (List.insertionSort byID db.users),
         (db.users.length : Int)) ∧
    (ListUsers clampDemoDB 101 0).1.length = 101 := by
  refine ⟨rfl, rfl, ?_, ?_, ?_, ?_, ?_, ?_, rfl, ?_⟩
  · intro h
    simp [Handler.clampLimit, h]
  · intro h
    have : ¬(limit ≤ 0) := by omega
    simp [Handler.clampLimit, h, this]
  · intro h1 h2
    have h3 : ¬(limit ≤ 0) := by omega
    have h4 : ¬(100 < limit) := by omega
    simp [Handler.clampLimit, h3, h4]
  · unfold Handler.clampLimit
    split
    · omega
    · rename_i hcond
      simp at hcond
      omega
  · unfold Handler.clampLimit
    split
    · omega
    · rename_i hcond
      simp at hcond
      omega
  · unfold Handler.clampOffset
    split <;> omega
  · show (window 101 0 (List.insertionSort byID clampDemoDB.users)).length = 101
    have hlen : clampDemoDB.users.length = 101 := by
      simp [clampDemoDB]
    rw [window, show Int.toNat 0 = 0 from rfl, show Int.toNat 101 = 101 from rfl,
      List.drop_zero, List.length_take, List.length_insertionSort, hlen]
    exact Nat.min_self 101

theorem handler_clamps_engine_passes_witness :
    Handler.clampLimit 150 = 20 ∧ Handler.clampLimit 0 = 20 ∧
      Handler.clampLimit 37 = 37 ∧ Handler.clampOffset (-5) = max (-5) 0 :=
  have h150 := handler_clamps_engine_passes sampleDB 1 150 (-5)
  have h0 := handler_clamps_engine_passes sampleDB 1 0 0
  have h37 := handler_clamps_engine_passes sampleDB 1 37 0
  ⟨h150.2.2.2.1 (by decide), h0.2.2.1 (by decide),
    h37.2.2.2.2.1 (by decide) (by decide), h150.2.2.2.2.2.2.2.1⟩

/-- C10: a failed edge insert becomes AlreadyFollowing exactly when the
storage error text equals one of the two fixed `follows_pkey` strings; a
conflict reported with any other text (wrapped or reworded) surfaces as a
generic internal error, and AlreadyFollowing can only arise from an insert
error whose text passes that exact-string test. -/
theorem unique_violation_exact_strings (f : FollowFaults) (db : DB) (a b : Int) :
    (∀ s : String, isUniqueViolation s = true ↔
      (s = "pq: duplicate key value violates unique constraint \"follows_pkey\"" ∨
       s = "duplicate key value violates unique constraint \"follows_pkey\"")) ∧
    (edgeExists db a b = true → a ≠ b → f.getFollower = false →
      f.getFollowing = false → f.beginTx = false →
      (userLookup db a).isSome = true → (userLookup db b).isSome = true →
      Follow f db a b
        = (if isUniqueViolation f.dupText then (some Err.alreadyFollowing, db)
           else (some (Err.internal f.dupText), db))) ∧
    ((Follow f db a b).1 = some Err.alreadyFollowing →
      (edgeExists db a b = true ∧ isUniqueViolation f.dupText = true) ∨
      (∃ s, f.insert = some s ∧ isUniqueViolation s = true ∧
        edgeExists db a b = false)) := by
  refine ⟨?_, ?_, ?_⟩
  · intro s
    simp [isUniqueViolation]
  · intro hex hab h1 h2 h3 hsa hsb
    obtain ⟨ua', hua'⟩ := Option.isSome_iff_exists.mp hsa
    obtain ⟨ub', hub'⟩ := Option.isSome_iff_exists.mp hsb
    unfold Follow GetUser
    simp only [h1, h2, h3, hab, hex, hua', hub', if_false, if_true, beq_iff_eq]
    split <;> simp_all
  · intro h
    unfold Follow GetUser at h
    by_cases hab : a = b
    · simp [hab] at h
    · simp only [hab, beq_iff_eq, if_false] at h
      by_cases h1 : f.getFollower
      · simp [h1] at h
      · simp only [h1, if_false] at h
        cases hla : userLookup db a with
        | none => simp [hla] at h
        | some ua' =>
          simp only [hla] at h
          by_cases h2 : f.getFollowing
          · simp [h2] at h
          · simp only [h2, if_false] at h
            cases hlb : userLookup db b with
            | none => simp [hlb] at h
            | some ub' =>
              simp only [hlb] at h
              by_cases h3 : f.beginTx
              · simp [h3] at h
              · simp only [h3, if_false] at h
                by_cases hex : edgeExists db a b
                · left
                  refine ⟨hex, ?_⟩
                  simp only [hex, if_true] at h
                  by_cases huv : isUniqueViolation f.dupText
                  · exact huv
                  · simp [huv] at h
                · right
                  simp only [hex, Bool.false_eq_true, if_false] at h
                  cases hins : f.insert with
                  | some s =>
                    simp only [hins] at h
                    by_cases huv : isUniqueViolation s
                    · exact ⟨s, rfl, huv, by simpa using hex⟩
                    · simp [huv] at h
                  | none =>
                    simp only [hins] at h
                    by_cases h4 : f.updFollowing
                    · simp [h4] at h
                    · by_cases h5 : f.updFollowers
                      · simp [h4, h5] at h
                      · by_cases h6 : f.commit
                        · simp [h4, h5, h6] at h
                        · simp [h4, h5, h6] at h

theorem unique_violation_exact_strings_witness :
    Follow ⟨false, false, false, Option.none,
        "failed to create follow: pq: duplicate key value violates unique constraint \"follows_pkey\"",
        false, false, false⟩ dupDB 1 2
      = (some (Err.internal
          "failed to create follow: pq: duplicate key value violates unique constraint \"follows_pkey\""),
         dupDB) := by
  have h := (unique_violation_exact_strings ⟨false, false, false, Option.none,
      "failed to create follow: pq: duplicate key value violates unique constraint \"follows_pkey\"",
      false, false, false⟩ dupDB 1 2).2.1
    (by decide) (by decide) rfl rfl rfl (by decide) (by decide)
  rw [h]
  decide

end FollowService
